import Mathlib

/-!
Shallow embedding of the UniBrowse backend (`src/backend/main.py`):
the token store (`hash_token`, `load_valid_tokens`, `save_token`,
`verify_token`, `create_token`), the identity resolver
(`get_or_create_browser_id`), the reconciliation engine
(`sync_bookmarks` core loop) and the retrieval projection
(`list_bookmarks`), together with theorems settling the spec claims.

Modelling conventions:
- SQLite TEXT values are Lean `String`s; nullable columns are
  `Option String` (`none` = SQL NULL).  SQLite compares TEXT
  lexicographically, matching the `String` linear order.
- A Python optional dict field has three states — absent, present as
  `None`, present as a string — modelled by `PyOpt`.
- `hashlib.sha256(...).hexdigest()` is an abstract `String → String`
  parameter `hash` of the token-store functions: none of the verified
  properties depends on anything but its functionality.
- Tables are Lean lists in rowid (insertion) order; `AUTOINCREMENT`
  primary keys are a `next id` counter carried in the store state.
- The file system behind `auth_tokens.txt` is part of `TokenState`;
  I/O failure at read/save time is an explicit boolean of the step.
- `functools.lru_cache` on `verify_token` is an association list from
  argument to memoised result.  Eviction at `maxsize=128` only removes
  entries, and all traces considered stay far below the bound, so the
  model does not evict.
-/

/-- Three-state Python optional dict field: the key is absent, present
with value `None`, or present with a string value. -/
inductive PyOpt where
  | absent : PyOpt
  | null : PyOpt
  | val : String → PyOpt
deriving Repr, DecidableEq

/-- `d.get(key, default)` for a `PyOpt` field: absent yields the
default, an explicit `None` yields `none`, a string yields itself. -/
def PyOpt.get (d : PyOpt) (dflt : Option String) : Option String :=
  match d with
  | .absent => dflt
  | .null => none
  | .val s => some s

/-- Python `x or ""` on a `str | None` value: `None` and `""` are falsy
and give `""`; any other string gives itself. -/
def orEmpty (x : Option String) : String :=
  match x with
  | none => ""
  | some s => s

/-- SQL `IFNULL(column, '')`. -/
def ifnull (x : Option String) : String := x.getD ""

/-- SQL `COALESCE(x, y)` on two nullable TEXT values. -/
def coalesce (x y : Option String) : Option String :=
  match x with
  | some s => some s
  | none => y

-- ===== Token store (`auth_tokens.txt` + `lru_cache`d verification) =====

/-- Process + file-system state of the token subsystem: the lines of
`auth_tokens.txt` (the appended token hashes), the `lru_cache` memo of
`verify_token` keyed by the token argument, and whether reading the
file currently fails (models the `except` branch of
`load_valid_tokens`, which also covers a missing file: both produce
the empty set). -/
structure TokenState where
  hashes : List String
  cache : List (String × Bool)
  readFails : Bool
deriving Repr, DecidableEq

/-- `load_valid_tokens`: returns the set of lines of the token file,
or the empty set when the file is missing or reading raises (the
exception is caught and swallowed). -/
def load_valid_tokens (s : TokenState) : List String :=
  if s.readFails then [] else s.hashes

/-- Body of `verify_token` without the `lru_cache` layer: empty input
is rejected outright, otherwise the candidate's digest is checked for
membership in the loaded token set. -/
def verify_compute (hash : String → String) (s : TokenState) (t : String) : Bool :=
  if t = "" then false
  else (load_valid_tokens s).contains (hash t)

/-- `verify_token` as deployed: the `lru_cache` is consulted first and
a memoised result is returned as-is; on a miss the body runs and the
result (whatever it is) is memoised.  Returns the result and the new
process state. -/
def verify_token (hash : String → String) (s : TokenState) (t : String) :
    Bool × TokenState :=
  match s.cache.lookup t with
  | some b => (b, s)
  | none =>
    let r := verify_compute hash s t
    (r, { s with cache := (t, r) :: s.cache })

/-- `save_token` followed by `create_token`'s return: the fresh random
token `t` (a parameter here, `secrets.token_urlsafe(32)` in the code)
is hashed and the hash appended to the token file; when the append
raises, `save_token` catches and swallows the exception
(`saveFails = true` leaves the file unchanged).  In every case the
plaintext and the advisory lifetime are returned and the cache is left
untouched. -/
def create_token (hash : String → String) (saveFails : Bool) (s : TokenState)
    (t : String) : (String × Nat) × TokenState :=
  let h := hash t
  let s' := if saveFails then s else { s with hashes := s.hashes ++ [h] }
  ((t, 86400), s')

-- ===== Relational store (`browsers`, `bookmarks` tables) =====

/-- One row of the `browsers` table. -/
structure Browser where
  id : Nat
  name : String
  device_name : String
  profile_name : String
deriving Repr, DecidableEq

/-- One row of the `bookmarks` table.  `title`, `folder_path`,
`created_at`, `updated_at` are nullable TEXT columns. -/
structure Bookmark where
  id : Nat
  browser_id : Nat
  title : Option String
  url : String
  folder_path : Option String
  created_at : Option String
  updated_at : Option String
deriving Repr, DecidableEq

/-- The SQLite database: both tables in rowid order plus the
`AUTOINCREMENT` counters. -/
structure DB where
  browsers : List Browser
  bookmarks : List Bookmark
  next_browser_id : Nat
  next_bookmark_id : Nat
deriving Repr, DecidableEq

/-- `get_or_create_browser_id`: look the triple up in `browsers`; if a
row exists return its id and leave the store unchanged, otherwise
insert a new row and return its assigned id. -/
def get_or_create_browser_id (db : DB) (name device_name profile_name : String) :
    Nat × DB :=
  match db.browsers.find? (fun b =>
      b.name == name && b.device_name == device_name &&
      b.profile_name == profile_name) with
  | some row => (row.id, db)
  | none =>
    let bid := db.next_browser_id
    (bid,
      { db with
        browsers := db.browsers ++ [⟨bid, name, device_name, profile_name⟩]
        next_browser_id := bid + 1 })

-- ===== Reconciliation engine (`sync_bookmarks` core loop) =====

/-- One incoming bookmark record after `validate_sync_payload`:
`url` is a string and the three optional fields are each absent, null
or a string. -/
structure BookmarkRecord where
  title : PyOpt
  url : String
  folder_path : PyOpt
  created_at : PyOpt
deriving Repr, DecidableEq

/-- `b.get("title", "")` — the value written to the `title` column on
both the update and the insert path. -/
def recTitle (r : BookmarkRecord) : Option String := r.title.get (some "")

/-- `b.get("created_at")`. -/
def recCreatedAt (r : BookmarkRecord) : Option String := r.created_at.get none

/-- `b.get("folder_path", "") or ""` — the normalized folder path used
both as lookup key and as the stored column value. -/
def folderNorm (r : BookmarkRecord) : String := orEmpty (r.folder_path.get (some ""))

/-- The row-side dedup key compared by the lookup
`url = ? AND IFNULL(folder_path, '') = ?`. -/
def rowKey (e : Bookmark) : String × String := (e.url, ifnull e.folder_path)

/-- The record-side dedup key. -/
def recKey (r : BookmarkRecord) : String × String := (r.url, folderNorm r)

/-- The `SELECT id FROM bookmarks WHERE browser_id = ? AND url = ? AND
IFNULL(folder_path, '') = ?` lookup followed by `fetchone`: the first
row of the table matching the scoped dedup key. -/
def findBookmark (bms : List Bookmark) (bid : Nat) (r : BookmarkRecord) :
    Option Bookmark :=
  bms.find? (fun e =>
    e.browser_id == bid && e.url == r.url && ifnull e.folder_path == folderNorm r)

/-- The row built by the `INSERT INTO bookmarks ...` branch. -/
def mkRow (bid : Nat) (now : String) (nid : Nat) (r : BookmarkRecord) : Bookmark :=
  ⟨nid, bid, recTitle r, r.url, some (folderNorm r), recCreatedAt r, some now⟩

/-- The `UPDATE bookmarks SET title = ?, created_at = COALESCE(?,
created_at), updated_at = ? WHERE id = ?` statement applied to one
row. -/
def updateRow (now : String) (rid : Nat) (r : BookmarkRecord) (e : Bookmark) :
    Bookmark :=
  if e.id == rid then
    { e with
      title := recTitle r
      created_at := coalesce (recCreatedAt r) e.created_at
      updated_at := some now }
  else e

/-- Accumulator of the `for b in payload["bookmarks"]` loop. -/
structure SyncAcc where
  db : DB
  inserted : Nat
  updated : Nat
deriving Repr, DecidableEq

/-- One iteration of the loop body: look the record up by scoped dedup
key; update the found row in place, or insert a fresh row at the next
rowid. -/
def processRecord (bid : Nat) (now : String) (acc : SyncAcc) (r : BookmarkRecord) :
    SyncAcc :=
  match findBookmark acc.db.bookmarks bid r with
  | some row =>
    { acc with
      db := { acc.db with bookmarks := acc.db.bookmarks.map (updateRow now row.id r) }
      updated := acc.updated + 1 }
  | none =>
    { acc with
      db := { acc.db with
        bookmarks := acc.db.bookmarks ++ [mkRow bid now acc.db.next_bookmark_id r]
        next_bookmark_id := acc.db.next_bookmark_id + 1 }
      inserted := acc.inserted + 1 }

/-- The reconciliation core of `sync_bookmarks`, after validation and
identity resolution: a single `now` watermark, then the loop over the
batch, starting from zero counts. -/
def sync_bookmarks (bid : Nat) (now : String) (db : DB)
    (records : List BookmarkRecord) : SyncAcc :=
  records.foldl (processRecord bid now) ⟨db, 0, 0⟩

-- ===== Retrieval projection (`list_bookmarks`) =====

/-- One output row of the `SELECT ... FROM bookmarks b JOIN browsers
br ON br.id = b.browser_id` projection. -/
structure JoinedRow where
  id : Nat
  browser_name : String
  device_name : String
  profile_name : String
  title : Option String
  url : String
  folder_path : Option String
  created_at : Option String
  updated_at : Option String
deriving Repr, DecidableEq

/-- The unordered content of the join: each bookmark paired with the
first `browsers` row carrying its `browser_id` (an inner join —
orphaned bookmarks are dropped), in bookmark rowid order. -/
def joinRows (db : DB) : List JoinedRow :=
  db.bookmarks.filterMap (fun b =>
    (db.browsers.find? (fun br => br.id == b.browser_id)).map (fun br =>
      ⟨b.id, br.name, br.device_name, br.profile_name,
       b.title, b.url, b.folder_path, b.created_at, b.updated_at⟩))

/-- Lexicographic comparison of character sequences — SQLite's
default BINARY collation for TEXT, under which the ISO timestamps the
code writes compare chronologically. -/
def charListLe : List Char → List Char → Bool
  | [], _ => true
  | _ :: _, [] => false
  | a :: as, b :: bs =>
    if a < b then true
    else if a = b then charListLe as bs
    else false

/-- SQLite's total order on a nullable TEXT column: NULL sorts before
every string, strings sort lexicographically. -/
def tsLe (x y : Option String) : Bool :=
  match x, y with
  | none, _ => true
  | some _, none => false
  | some a, some b => charListLe a.data b.data

/-- `ORDER BY b.updated_at DESC` row comparison: later (or NULL-last)
watermarks first. -/
def rowGe (a b : JoinedRow) : Prop := tsLe b.updated_at a.updated_at = true

instance : DecidableRel rowGe := fun a b => by
  unfold rowGe; infer_instance

/-- The semantics of `list_bookmarks`' query, `SELECT ... ORDER BY
b.updated_at DESC` with no further sort key: `out` is a possible
result iff it is a permutation of the join sorted by `updated_at`
descending.  SQLite guarantees nothing more — in particular no
particular relative order of rows with equal `updated_at`. -/
def list_bookmarks (db : DB) (out : List JoinedRow) : Prop :=
  out.Perm (joinRows db) ∧ out.Sorted rowGe

-- ===== Derived notions used by the theorems =====

/-- The lookup predicate of `findBookmark`, named for reasoning:
`browser_id = ? AND url = ? AND IFNULL(folder_path, '') = ?`. -/
def bmMatches (bid : Nat) (r : BookmarkRecord) (e : Bookmark) : Bool :=
  e.browser_id == bid && e.url == r.url && ifnull e.folder_path == folderNorm r

/-- The rows the insert branch produces for a batch, ids assigned
from `nid` on, in input order. -/
def newRows (bid : Nat) (now : String) : Nat → List BookmarkRecord → List Bookmark
  | _, [] => []
  | nid, r :: rs => mkRow bid now nid r :: newRows bid now (nid + 1) rs

/-- Refreshing only the watermark of a row. -/
def touch (now : String) (e : Bookmark) : Bookmark :=
  { e with updated_at := some now }

/-- The number of `browsers` rows carrying a given triple — the
quantity the `UNIQUE(name, device_name, profile_name)` constraint
bounds by one. -/
def tripleCount (db : DB) (name device_name profile_name : String) : Nat :=
  (db.browsers.filter (fun b =>
    b.name == name && b.device_name == device_name &&
    b.profile_name == profile_name)).length

-- ===== Claim theorems: token store =====

/-- C1 (code evaluation at the failing input): the `lru_cache` on
`verify_token` is never invalidated by `create_token`, so a negative
verification result cached before a token is issued is served
verbatim afterwards.  Concretely: verify "tok" on an empty trust
store (false, memoised), then issue the token "tok" (its hash is now
in the store, and the uncached body would return true), yet
`verify_token "tok"` still returns false — a stale negative, where
the claim requires true. -/
theorem verify_serves_stale_negative_after_issuance :
    (verify_token (fun t => "#" ++ t) ⟨[], [], false⟩ "tok").1 = false ∧
    (create_token (fun t => "#" ++ t) false
      (verify_token (fun t => "#" ++ t) ⟨[], [], false⟩ "tok").2 "tok").2.hashes
      = ["#tok"] ∧
    verify_compute (fun t => "#" ++ t)
      (create_token (fun t => "#" ++ t) false
        (verify_token (fun t => "#" ++ t) ⟨[], [], false⟩ "tok").2 "tok").2 "tok"
      = true ∧
    (verify_token (fun t => "#" ++ t)
      (create_token (fun t => "#" ++ t) false
        (verify_token (fun t => "#" ++ t) ⟨[], [], false⟩ "tok").2 "tok").2
      "tok").1 = false := by
  decide

/-- C2 (code evaluation at the failing input): when appending the
digest to the trust store fails, `save_token` catches and swallows
the exception and `create_token` still returns the plaintext token
with its advisory lifetime, leaving the trust store unchanged — the
issued token does not even verify afterwards.  The claim requires the
call to fail with a StorageError and issue nothing. -/
theorem create_token_ignores_storage_failure :
    (create_token (fun t => "#" ++ t) true ⟨[], [], false⟩ "tok").1
      = ("tok", 86400) ∧
    (create_token (fun t => "#" ++ t) true ⟨[], [], false⟩ "tok").2.hashes = [] ∧
    (verify_token (fun t => "#" ++ t)
      (create_token (fun t => "#" ++ t) true ⟨[], [], false⟩ "tok").2 "tok").1
      = false := by
  decide

/-- On a cache miss, `verify_token` returns what its uncached body
computes. -/
theorem verify_token_miss (hash : String → String) (s : TokenState) (t : String)
    (h : s.cache.lookup t = none) :
    (verify_token hash s t).1 = verify_compute hash s t := by
  unfold verify_token
  rw [h]

/-- The state left behind by a successful `create_token`: the fresh
digest appended to the store, cache and read status untouched. -/
theorem create_token_state (hash : String → String) (s : TokenState) (t : String) :
    (create_token hash false s t).2
      = ⟨s.hashes ++ [hash t], s.cache, s.readFails⟩ := rfl

/-- C8: when reading the trust store fails during a verification that
actually consults the store (a cache miss), `verify_token` returns
false — `load_valid_tokens` swallows the read error and yields the
empty set, so membership fails and the candidate is treated as
invalid.  The model raises no exception: the function is total. -/
theorem verify_fails_closed_on_read_failure (hash : String → String)
    (s : TokenState) (t : String) (hfail : s.readFails = true)
    (hmiss : s.cache.lookup t = none) :
    (verify_token hash s t).1 = false := by
  unfold verify_token
  rw [hmiss]
  simp only [verify_compute, load_valid_tokens, hfail, if_true]
  split
  · rfl
  · simp [List.contains]

/-- Witness for C8 at a concrete state: the file read fails, the
candidate's digest is in the (unreadable) store and is not cached,
and verification still returns false. -/
theorem verify_fails_closed_on_read_failure_witness :
    (⟨["#x"], [], true⟩ : TokenState).readFails = true ∧
    (⟨["#x"], [], true⟩ : TokenState).cache.lookup "x" = none ∧
    (verify_token (fun t => "#" ++ t) ⟨["#x"], [], true⟩ "x").1 = false :=
  ⟨rfl, rfl,
    verify_fails_closed_on_read_failure (fun t => "#" ++ t) ⟨["#x"], [], true⟩
      "x" rfl rfl⟩

/-- C9: the token lifecycle.  From a state whose memo holds no entry
for the inputs exercised and whose store read succeeds: verifying a
freshly issued token returns true; verifying a never-issued string
("garbage", whose digest is in neither the prior store nor the fresh
token's digest) returns false; verifying the empty input returns
false (the code rejects falsy input before touching the store, and
never raises — the model is a total function). -/
theorem token_lifecycle (hash : String → String) (s0 : TokenState) (t : String)
    (hread : s0.readFails = false) (ht : t ≠ "")
    (hc : s0.cache.lookup t = none)
    (hg : s0.cache.lookup "garbage" = none)
    (hgh : hash "garbage" ∉ s0.hashes) (hght : hash "garbage" ≠ hash t)
    (he : s0.cache.lookup "" = none) :
    (verify_token hash (create_token hash false s0 t).2 t).1 = true ∧
    (verify_token hash (create_token hash false s0 t).2 "garbage").1 = false ∧
    (verify_token hash (create_token hash false s0 t).2 "").1 = false := by
  rw [create_token_state]
  refine ⟨?_, ?_, ?_⟩ <;>
    rw [verify_token_miss] <;>
    simp only [verify_compute, load_valid_tokens] <;>
    try assumption
  · rw [if_neg ht]
    simp [hread]
  · rw [if_neg (by decide : ¬ ("garbage" = ""))]
    simp [hread, hght]
    exact hgh
  · rfl

/-- Witness for C9 at a concrete state: empty store, empty cache,
fresh token "tok". -/
theorem token_lifecycle_witness :
    ((⟨[], [], false⟩ : TokenState).readFails = false ∧ "tok" ≠ "" ∧
      (fun t => "#" ++ t) "garbage" ∉ (⟨[], [], false⟩ : TokenState).hashes ∧
      (fun t => "#" ++ t) "garbage" ≠ (fun t => "#" ++ t) "tok") ∧
    (verify_token (fun t => "#" ++ t)
      (create_token (fun t => "#" ++ t) false ⟨[], [], false⟩ "tok").2 "tok").1
      = true ∧
    (verify_token (fun t => "#" ++ t)
      (create_token (fun t => "#" ++ t) false ⟨[], [], false⟩ "tok").2
      "garbage").1 = false ∧
    (verify_token (fun t => "#" ++ t)
      (create_token (fun t => "#" ++ t) false ⟨[], [], false⟩ "tok").2 "").1
      = false :=
  ⟨⟨rfl, by decide, by decide, by decide⟩,
    token_lifecycle (fun t => "#" ++ t) ⟨[], [], false⟩ "tok" rfl (by decide)
      rfl rfl (by decide) (by decide) rfl⟩

-- ===== Claim theorems: identity resolver =====

/-- C7: identity resolution is stable.  Under the uniqueness
invariant (at most one row per triple): a hit returns the found row's
id and leaves the store untouched; a miss appends exactly one new
row, assigned the next id, and returns that id; a second resolution
with the same triple returns the same id and changes nothing, and
exactly one row for the triple remains. -/
theorem get_or_create_browser_id_stable (db : DB) (n d p : String)
    (hinv : tripleCount db n d p ≤ 1) :
    (∀ row, db.browsers.find? (fun b =>
        b.name == n && b.device_name == d && b.profile_name == p) = some row →
      get_or_create_browser_id db n d p = (row.id, db)) ∧
    (db.browsers.find? (fun b =>
        b.name == n && b.device_name == d && b.profile_name == p) = none →
      (get_or_create_browser_id db n d p).2.browsers
        = db.browsers ++ [⟨db.next_browser_id, n, d, p⟩] ∧
      (get_or_create_browser_id db n d p).1 = db.next_browser_id) ∧
    (get_or_create_browser_id (get_or_create_browser_id db n d p).2 n d p).1
      = (get_or_create_browser_id db n d p).1 ∧
    (get_or_create_browser_id (get_or_create_browser_id db n d p).2 n d p).2
      = (get_or_create_browser_id db n d p).2 ∧
    tripleCount (get_or_create_browser_id db n d p).2 n d p = 1 := by
  rcases hfind : db.browsers.find? (fun b =>
      b.name == n && b.device_name == d && b.profile_name == p) with _ | row
  · have hmain : get_or_create_browser_id db n d p
        = (db.next_browser_id,
            { db with
              browsers :=
                db.browsers ++ [⟨db.next_browser_id, n, d, p⟩]
              next_browser_id := db.next_browser_id + 1 }) := by
      unfold get_or_create_browser_id
      rw [hfind]
    have hnew : (fun b : Browser =>
        b.name == n && b.device_name == d && b.profile_name == p)
          ⟨db.next_browser_id, n, d, p⟩ = true := by simp
    have happ : (db.browsers ++ [(⟨db.next_browser_id, n, d, p⟩ : Browser)]).find?
        (fun b => b.name == n && b.device_name == d && b.profile_name == p)
        = some ⟨db.next_browser_id, n, d, p⟩ := by
      rw [List.find?_append, hfind]
      simp [hnew]
    have hmain2 : get_or_create_browser_id
        ({ db with
            browsers := db.browsers ++ [⟨db.next_browser_id, n, d, p⟩]
            next_browser_id := db.next_browser_id + 1 } : DB) n d p
        = (db.next_browser_id,
            { db with
              browsers := db.browsers ++ [⟨db.next_browser_id, n, d, p⟩]
              next_browser_id := db.next_browser_id + 1 }) := by
      unfold get_or_create_browser_id
      simp only
      rw [happ]
    refine ⟨?_, ?_, ?_, ?_, ?_⟩
    · intro row h
      rw [hfind] at h
      exact absurd h (by simp)
    · intro _
      rw [hmain]
      exact ⟨rfl, rfl⟩
    · simp only [hmain, hmain2]
    · simp only [hmain, hmain2]
    · simp only [hmain]
      unfold tripleCount
      simp only [List.filter_append]
      rw [List.find?_eq_none] at hfind
      have hz : db.browsers.filter (fun b =>
          b.name == n && b.device_name == d && b.profile_name == p) = [] := by
        rw [List.filter_eq_nil_iff]
        exact fun a ha => by simpa using hfind a ha
      rw [hz]
      simp [hnew]
  · have hp := List.find?_some hfind
    have hm := List.mem_of_find?_eq_some hfind
    have hmain : get_or_create_browser_id db n d p = (row.id, db) := by
      unfold get_or_create_browser_id
      rw [hfind]
    refine ⟨?_, ?_, ?_, ?_, ?_⟩
    · intro row' h
      have e := Option.some.inj (hfind.symm.trans h)
      rw [hmain, e]
    · intro h
      rw [hfind] at h
      exact absurd h (by simp)
    · simp only [hmain]
    · simp only [hmain]
    · simp only [hmain]
      have h1 : 1 ≤ tripleCount db n d p := by
        unfold tripleCount
        have hmem : row ∈ db.browsers.filter (fun b =>
            b.name == n && b.device_name == d && b.profile_name == p) :=
          List.mem_filter.mpr ⟨hm, hp⟩
        exact List.length_pos.mpr (fun hnil => by simp [hnil] at hmem)
      exact Nat.le_antisymm hinv h1

/-- Witness for C7: resolving `("chrome", "laptop", "default")` twice
against an empty store. -/
theorem get_or_create_browser_id_stable_witness :
    tripleCount ⟨[], [], 1, 1⟩ "chrome" "laptop" "default" ≤ 1 ∧
    ((get_or_create_browser_id
        (get_or_create_browser_id ⟨[], [], 1, 1⟩ "chrome" "laptop" "default").2
        "chrome" "laptop" "default").1
      = (get_or_create_browser_id ⟨[], [], 1, 1⟩ "chrome" "laptop" "default").1 ∧
      tripleCount
        (get_or_create_browser_id ⟨[], [], 1, 1⟩ "chrome" "laptop" "default").2
        "chrome" "laptop" "default" = 1) :=
  ⟨by decide,
    ((get_or_create_browser_id_stable ⟨[], [], 1, 1⟩ "chrome" "laptop" "default"
      (by decide)).2.2).1,
    ((get_or_create_browser_id_stable ⟨[], [], 1, 1⟩ "chrome" "laptop" "default"
      (by decide)).2.2).2.2⟩

-- ===== Reconciliation engine: helper lemmas =====

/-- `findBookmark` is `find?` with the named predicate. -/
theorem findBookmark_eq (l : List Bookmark) (bid : Nat) (r : BookmarkRecord) :
    findBookmark l bid r = l.find? (bmMatches bid r) := rfl

/-- `COALESCE(x, x) = x`. -/
theorem coalesce_self (x : Option String) : coalesce x x = x := by
  cases x <;> rfl

/-- The predicate decomposed into browser scope and dedup key. -/
theorem bmMatches_iff (bid : Nat) (r : BookmarkRecord) (e : Bookmark) :
    bmMatches bid r e = true ↔ e.browser_id = bid ∧ rowKey e = recKey r := by
  simp [bmMatches, rowKey, recKey, Prod.ext_iff, and_assoc]

/-- A freshly inserted row matches its own record's lookup. -/
theorem bmMatches_mkRow_self (bid : Nat) (now : String) (nid : Nat)
    (r : BookmarkRecord) : bmMatches bid r (mkRow bid now nid r) = true := by
  simp [bmMatches, mkRow, ifnull]

/-- A row inserted for `r` matches the lookup of any record sharing
`r`'s dedup key. -/
theorem bmMatches_mkRow_of_key (bid : Nat) (now : String) (nid : Nat)
    (r r' : BookmarkRecord) (h : recKey r = recKey r') :
    bmMatches bid r' (mkRow bid now nid r) = true := by
  rw [bmMatches_iff]
  refine ⟨rfl, ?_⟩
  rw [← h]
  rfl

/-- Rows outside the identity scope never match the lookup. -/
theorem findBookmark_scope_none (l : List Bookmark) (bid : Nat)
    (r : BookmarkRecord) (h : ∀ e ∈ l, e.browser_id ≠ bid) :
    findBookmark l bid r = none := by
  rw [findBookmark_eq, List.find?_eq_none]
  intro e he
  simp only [bmMatches_iff]
  exact fun hc => h e he hc.1

/-- `findBookmark` over a table split. -/
theorem findBookmark_append (l₁ l₂ : List Bookmark) (bid : Nat)
    (r : BookmarkRecord) :
    findBookmark (l₁ ++ l₂) bid r
      = (findBookmark l₁ bid r).or (findBookmark l₂ bid r) := by
  rw [findBookmark_eq, findBookmark_eq, findBookmark_eq]
  exact List.find?_append

/-- The UPDATE statement leaves every row with another id alone. -/
theorem updateRow_map_ne (now : String) (rid : Nat) (r : BookmarkRecord)
    (l : List Bookmark) (h : ∀ e ∈ l, e.id ≠ rid) :
    l.map (updateRow now rid r) = l := by
  rw [List.map_congr_left (fun e he => ?_), List.map_id']
  unfold updateRow
  rw [if_neg]
  simp only [beq_iff_eq]
  exact h e he

/-- Updating a freshly inserted row with its own record only
refreshes the watermark. -/
theorem updateRow_mkRow_self (now1 now2 : String) (bid nid : Nat)
    (r : BookmarkRecord) :
    updateRow now2 nid r (mkRow bid now1 nid r)
      = touch now2 (mkRow bid now1 nid r) := by
  unfold updateRow touch mkRow
  simp [coalesce_self]

/-- Every row the insert branch produces belongs to the synced
identity. -/
theorem newRows_browser_id (bid : Nat) (now : String) :
    ∀ (rs : List BookmarkRecord) (nid : Nat),
      ∀ e ∈ newRows bid now nid rs, e.browser_id = bid := by
  intro rs
  induction rs with
  | nil => intro nid e he; cases he
  | cons r rs ih =>
    intro nid e he
    rcases he with _ | ⟨_, hmem⟩
    · rfl
    · exact ih (nid + 1) e hmem

/-- Ids of the rows the insert branch produces start at the first
free rowid. -/
theorem newRows_id_ge (bid : Nat) (now : String) :
    ∀ (rs : List BookmarkRecord) (nid : Nat),
      ∀ e ∈ newRows bid now nid rs, nid ≤ e.id := by
  intro rs
  induction rs with
  | nil => intro nid e he; cases he
  | cons r rs ih =>
    intro nid e he
    rcases he with _ | ⟨_, hmem⟩
    · exact Nat.le_refl _
    · exact Nat.le_of_lt (Nat.lt_of_lt_of_le (Nat.lt_succ_self _)
        (ih (nid + 1) e hmem))

/-- The watermark refresh touches no column the lookup reads. -/
theorem bmMatches_touch (bid : Nat) (r : BookmarkRecord) (now : String)
    (e : Bookmark) : bmMatches bid r (touch now e) = bmMatches bid r e := rfl

/-- The dedup key of a freshly inserted row is its record's key. -/
theorem rowKey_mkRow (bid : Nat) (now : String) (nid : Nat)
    (r : BookmarkRecord) : rowKey (mkRow bid now nid r) = recKey r := rfl

/-- Loop body, miss case: the record is inserted at the next rowid. -/
theorem processRecord_insert (bid : Nat) (now : String) (acc : SyncAcc)
    (r : BookmarkRecord) (h : findBookmark acc.db.bookmarks bid r = none) :
    processRecord bid now acc r
      = { acc with
          db := { acc.db with
            bookmarks :=
              acc.db.bookmarks ++ [mkRow bid now acc.db.next_bookmark_id r]
            next_bookmark_id := acc.db.next_bookmark_id + 1 }
          inserted := acc.inserted + 1 } := by
  unfold processRecord
  rw [h]

/-- Loop body, hit case: the found row is updated in place. -/
theorem processRecord_update (bid : Nat) (now : String) (acc : SyncAcc)
    (r : BookmarkRecord) (row : Bookmark)
    (h : findBookmark acc.db.bookmarks bid r = some row) :
    processRecord bid now acc r
      = { acc with
          db := { acc.db with
            bookmarks := acc.db.bookmarks.map (updateRow now row.id r) }
          updated := acc.updated + 1 } := by
  unfold processRecord
  rw [h]

/-- Insert pass: a batch with pairwise distinct dedup keys, none of
which matches an existing row, is appended wholesale — every record
is counted as inserted, none as updated, and ids are assigned
consecutively from the next free rowid. -/
theorem sync_insert_run (bid : Nat) (now : String) :
    ∀ (rs : List BookmarkRecord) (brs : List Browser) (P : List Bookmark)
      (nbid nid ins upd : Nat),
      (∀ r ∈ rs, ∀ e ∈ P, bmMatches bid r e = false) →
      (rs.map recKey).Nodup →
      rs.foldl (processRecord bid now) ⟨⟨brs, P, nbid, nid⟩, ins, upd⟩
        = ⟨⟨brs, P ++ newRows bid now nid rs, nbid, nid + rs.length⟩,
            ins + rs.length, upd⟩ := by
  intro rs
  induction rs with
  | nil =>
    intro brs P nbid nid ins upd _ _
    simp [newRows]
  | cons r rs ih =>
    intro brs P nbid nid ins upd hmiss hnodup
    simp only [List.map_cons, List.nodup_cons] at hnodup
    have hfind : findBookmark P bid r = none := by
      rw [findBookmark_eq, List.find?_eq_none]
      intro e he
      simp [hmiss r (List.mem_cons_self _ _) e he]
    rw [List.foldl_cons,
      processRecord_insert bid now ⟨⟨brs, P, nbid, nid⟩, ins, upd⟩ r hfind]
    refine (ih brs (P ++ [mkRow bid now nid r]) nbid (nid + 1) (ins + 1) upd
      ?_ hnodup.2).trans ?_
    · intro r' hr' e he
      rcases List.mem_append.mp he with hP | hnew
      · exact hmiss r' (List.mem_cons_of_mem _ hr') e hP
      · rcases List.mem_singleton.mp hnew with rfl
        cases hb : bmMatches bid r' (mkRow bid now nid r) with
        | false => rfl
        | true =>
          exfalso
          have hk := ((bmMatches_iff bid r' (mkRow bid now nid r)).mp hb).2
          rw [rowKey_mkRow] at hk
          exact hnodup.1 (hk ▸ List.mem_map_of_mem recKey hr')
    · simp only [newRows, List.append_assoc, List.singleton_append,
        List.length_cons, SyncAcc.mk.injEq, DB.mk.injEq, true_and, and_true]
      omega

/-- Update pass: re-reconciling a batch whose rows are exactly the
suffix `newRows` of the table (none of it matching the prefix `P`,
keys pairwise distinct, prefix ids below the suffix's) rewrites each
of its rows to the same content with the new watermark, counts every
record as updated and inserts nothing. -/
theorem sync_update_run (bid : Nat) (now1 now2 : String) :
    ∀ (rs : List BookmarkRecord) (brs : List Browser) (P : List Bookmark)
      (nbid nid m ins upd : Nat),
      (∀ r ∈ rs, ∀ e ∈ P, bmMatches bid r e = false) →
      (∀ e ∈ P, e.id < nid) →
      (rs.map recKey).Nodup →
      rs.foldl (processRecord bid now2)
          ⟨⟨brs, P ++ newRows bid now1 nid rs, nbid, m⟩, ins, upd⟩
        = ⟨⟨brs, P ++ (newRows bid now1 nid rs).map (touch now2), nbid, m⟩,
            ins, upd + rs.length⟩ := by
  intro rs
  induction rs with
  | nil =>
    intro brs P nbid nid m ins upd _ _ _
    simp [newRows]
  | cons r rs ih =>
    intro brs P nbid nid m ins upd hmiss hlt hnodup
    simp only [List.map_cons, List.nodup_cons] at hnodup
    have hfindP : findBookmark P bid r = none := by
      rw [findBookmark_eq, List.find?_eq_none]
      intro e he
      simp [hmiss r (List.mem_cons_self _ _) e he]
    have hfind : findBookmark (P ++ newRows bid now1 nid (r :: rs)) bid r
        = some (mkRow bid now1 nid r) := by
      rw [findBookmark_append, hfindP, Option.none_or]
      show (findBookmark
        (mkRow bid now1 nid r :: newRows bid now1 (nid + 1) rs) bid r) = _
      rw [findBookmark_eq]
      exact List.find?_cons_of_pos _ (bmMatches_mkRow_self bid now1 nid r)
    have hmap : (P ++ newRows bid now1 nid (r :: rs)).map
          (updateRow now2 (mkRow bid now1 nid r).id r)
        = (P ++ [touch now2 (mkRow bid now1 nid r)])
            ++ newRows bid now1 (nid + 1) rs := by
      show (P ++ mkRow bid now1 nid r :: newRows bid now1 (nid + 1) rs).map
          (updateRow now2 nid r) = _
      rw [List.map_append, List.map_cons,
        updateRow_map_ne now2 nid r P (fun e he => Nat.ne_of_lt (hlt e he)),
        updateRow_mkRow_self,
        updateRow_map_ne now2 nid r _ (fun e he => Nat.ne_of_gt
          (Nat.lt_of_lt_of_le (Nat.lt_succ_self nid)
            (newRows_id_ge bid now1 rs (nid + 1) e he)))]
      simp [List.append_assoc]
    rw [List.foldl_cons,
      processRecord_update bid now2
        ⟨⟨brs, P ++ newRows bid now1 nid (r :: rs), nbid, m⟩, ins, upd⟩
        r (mkRow bid now1 nid r) hfind,
      hmap]
    refine (ih brs (P ++ [touch now2 (mkRow bid now1 nid r)]) nbid (nid + 1)
      m ins (upd + 1) ?_ ?_ hnodup.2).trans ?_
    · intro r' hr' e he
      rcases List.mem_append.mp he with hP | hnew
      · exact hmiss r' (List.mem_cons_of_mem _ hr') e hP
      · rcases List.mem_singleton.mp hnew with rfl
        rw [bmMatches_touch]
        cases hb : bmMatches bid r' (mkRow bid now1 nid r) with
        | false => rfl
        | true =>
          exfalso
          have hk := ((bmMatches_iff bid r' (mkRow bid now1 nid r)).mp hb).2
          rw [rowKey_mkRow] at hk
          exact hnodup.1 (hk ▸ List.mem_map_of_mem recKey hr')
    · intro e he
      rcases List.mem_append.mp he with hP | hnew
      · exact Nat.lt_succ_of_lt (hlt e hP)
      · rcases List.mem_singleton.mp hnew with rfl
        exact Nat.lt_succ_self nid
    · simp only [newRows, List.map_cons, List.append_assoc,
        List.singleton_append, List.length_cons, SyncAcc.mk.injEq,
        DB.mk.injEq, true_and, and_true]
      omega

/-- A row of another identity never matches a scoped lookup. -/
theorem bmMatches_false_of_scope (bid : Nat) (r : BookmarkRecord) (e : Bookmark)
    (h : e.browser_id ≠ bid) : bmMatches bid r e = false := by
  cases hb : bmMatches bid r e with
  | false => rfl
  | true => exact absurd ((bmMatches_iff bid r e).mp hb).1 h

/-- Refreshing the watermark of exactly the rows of one identity,
over a table that is out-of-scope rows followed by that identity's
fresh rows. -/
theorem touchIf_split (bid : Nat) (now1 now2 : String) (l : List Bookmark)
    (records : List BookmarkRecord) (nid : Nat)
    (hscope : ∀ e ∈ l, e.browser_id ≠ bid) :
    (l ++ newRows bid now1 nid records).map
        (fun e => if e.browser_id == bid then touch now2 e else e)
      = l ++ (newRows bid now1 nid records).map (touch now2) := by
  rw [List.map_append]
  congr 1
  · rw [List.map_congr_left (fun e he => ?_), List.map_id']
    rw [if_neg]
    simp only [beq_iff_eq]
    exact hscope e he
  · exact List.map_congr_left (fun e he => by
      rw [if_pos]
      simp only [beq_iff_eq]
      exact newRows_browser_id bid now1 records nid e he)

-- ===== Claim theorems: reconciliation engine =====

/-- C4: idempotence of reconciliation.  For a batch whose records
have pairwise distinct dedup keys, run against a store holding no row
of the synced identity (and well-formed rowids): the first call
reports `inserted = N, updated = 0`; re-running the identical batch
reports `inserted = 0, updated = N`; and the stored rows after the
second call are exactly those after the first, except that every row
of the synced identity carries the second call's watermark. -/
theorem sync_idempotent (db : DB) (bid : Nat) (now1 now2 : String)
    (records : List BookmarkRecord)
    (hscope : ∀ e ∈ db.bookmarks, e.browser_id ≠ bid)
    (hwf : ∀ e ∈ db.bookmarks, e.id < db.next_bookmark_id)
    (hkeys : (records.map recKey).Nodup) :
    (sync_bookmarks bid now1 db records).inserted = records.length ∧
    (sync_bookmarks bid now1 db records).updated = 0 ∧
    (sync_bookmarks bid now2 (sync_bookmarks bid now1 db records).db
      records).inserted = 0 ∧
    (sync_bookmarks bid now2 (sync_bookmarks bid now1 db records).db
      records).updated = records.length ∧
    (sync_bookmarks bid now2 (sync_bookmarks bid now1 db records).db
      records).db
      = { (sync_bookmarks bid now1 db records).db with
          bookmarks := (sync_bookmarks bid now1 db records).db.bookmarks.map
            (fun e => if e.browser_id == bid then touch now2 e else e) } := by
  have hmiss : ∀ r ∈ records, ∀ e ∈ db.bookmarks, bmMatches bid r e = false :=
    fun r _ e he => bmMatches_false_of_scope bid r e (hscope e he)
  have h1 : sync_bookmarks bid now1 db records
      = ⟨⟨db.browsers,
          db.bookmarks ++ newRows bid now1 db.next_bookmark_id records,
          db.next_browser_id, db.next_bookmark_id + records.length⟩,
          records.length, 0⟩ := by
    refine (sync_insert_run bid now1 records db.browsers db.bookmarks
      db.next_browser_id db.next_bookmark_id 0 0 hmiss hkeys).trans ?_
    simp
  have h2 : sync_bookmarks bid now2 (⟨db.browsers,
        db.bookmarks ++ newRows bid now1 db.next_bookmark_id records,
        db.next_browser_id, db.next_bookmark_id + records.length⟩ : DB) records
      = ⟨⟨db.browsers,
          db.bookmarks
            ++ (newRows bid now1 db.next_bookmark_id records).map (touch now2),
          db.next_browser_id, db.next_bookmark_id + records.length⟩,
          0, records.length⟩ := by
    refine (sync_update_run bid now1 now2 records db.browsers db.bookmarks
      db.next_browser_id db.next_bookmark_id
      (db.next_bookmark_id + records.length) 0 0 hmiss hwf hkeys).trans ?_
    simp
  rw [h1]
  simp only [h2]
  refine ⟨trivial, trivial, trivial, trivial, ?_⟩
  rw [touchIf_split bid now1 now2 db.bookmarks records db.next_bookmark_id hscope]

/-- Witness for C4: a two-record batch with distinct urls, synced
twice for identity 7 against an empty store. -/
theorem sync_idempotent_witness :
    ((∀ e ∈ (⟨[], [], 1, 1⟩ : DB).bookmarks, e.browser_id ≠ 7) ∧
      (∀ e ∈ (⟨[], [], 1, 1⟩ : DB).bookmarks,
        e.id < (⟨[], [], 1, 1⟩ : DB).next_bookmark_id) ∧
      (([⟨.val "A", "a", .absent, .absent⟩, ⟨.val "B", "b", .absent, .absent⟩]
        : List BookmarkRecord).map recKey).Nodup) ∧
    (sync_bookmarks 7 "t1" ⟨[], [], 1, 1⟩
      [⟨.val "A", "a", .absent, .absent⟩,
       ⟨.val "B", "b", .absent, .absent⟩]).inserted
      = ([⟨.val "A", "a", .absent, .absent⟩, ⟨.val "B", "b", .absent, .absent⟩]
        : List BookmarkRecord).length ∧
    (sync_bookmarks 7 "t1" ⟨[], [], 1, 1⟩
      [⟨.val "A", "a", .absent, .absent⟩,
       ⟨.val "B", "b", .absent, .absent⟩]).updated = 0 ∧
    (sync_bookmarks 7 "t2"
      (sync_bookmarks 7 "t1" ⟨[], [], 1, 1⟩
        [⟨.val "A", "a", .absent, .absent⟩,
         ⟨.val "B", "b", .absent, .absent⟩]).db
      [⟨.val "A", "a", .absent, .absent⟩,
       ⟨.val "B", "b", .absent, .absent⟩]).inserted = 0 ∧
    (sync_bookmarks 7 "t2"
      (sync_bookmarks 7 "t1" ⟨[], [], 1, 1⟩
        [⟨.val "A", "a", .absent, .absent⟩,
         ⟨.val "B", "b", .absent, .absent⟩]).db
      [⟨.val "A", "a", .absent, .absent⟩,
       ⟨.val "B", "b", .absent, .absent⟩]).updated
      = ([⟨.val "A", "a", .absent, .absent⟩, ⟨.val "B", "b", .absent, .absent⟩]
        : List BookmarkRecord).length ∧
    (sync_bookmarks 7 "t2"
      (sync_bookmarks 7 "t1" ⟨[], [], 1, 1⟩
        [⟨.val "A", "a", .absent, .absent⟩,
         ⟨.val "B", "b", .absent, .absent⟩]).db
      [⟨.val "A", "a", .absent, .absent⟩,
       ⟨.val "B", "b", .absent, .absent⟩]).db
      = { (sync_bookmarks 7 "t1" ⟨[], [], 1, 1⟩
            [⟨.val "A", "a", .absent, .absent⟩,
             ⟨.val "B", "b", .absent, .absent⟩]).db with
          bookmarks :=
            (sync_bookmarks 7 "t1" ⟨[], [], 1, 1⟩
              [⟨.val "A", "a", .absent, .absent⟩,
               ⟨.val "B", "b", .absent, .absent⟩]).db.bookmarks.map
              (fun e => if e.browser_id == 7 then touch "t2" e else e) } :=
  ⟨⟨by decide, by decide, by decide⟩,
    sync_idempotent ⟨[], [], 1, 1⟩ 7 "t1" "t2"
      [⟨.val "A", "a", .absent, .absent⟩, ⟨.val "B", "b", .absent, .absent⟩]
      (by decide) (by decide) (by decide)⟩

/-- C5: last write wins within a batch.  Reconciling a two-record
batch whose records share a normalized dedup key, against a store
with no rows of the synced identity, inserts one row (for the first
record) and then updates it in place (for the second): the result is
`inserted = 1, updated = 1` and exactly one stored row for the key,
carrying the second record's title (and its created_at when
non-null, else the first's). -/
theorem sync_batch_last_write_wins (db : DB) (bid : Nat) (now : String)
    (r1 r2 : BookmarkRecord)
    (hscope : ∀ e ∈ db.bookmarks, e.browser_id ≠ bid)
    (hwf : ∀ e ∈ db.bookmarks, e.id < db.next_bookmark_id)
    (hkey : recKey r1 = recKey r2) :
    (sync_bookmarks bid now db [r1, r2]).inserted = 1 ∧
    (sync_bookmarks bid now db [r1, r2]).updated = 1 ∧
    (sync_bookmarks bid now db [r1, r2]).db.bookmarks
      = db.bookmarks ++
        [⟨db.next_bookmark_id, bid, recTitle r2, r1.url, some (folderNorm r1),
          coalesce (recCreatedAt r2) (recCreatedAt r1), some now⟩] ∧
    ((sync_bookmarks bid now db [r1, r2]).db.bookmarks.filter
      (bmMatches bid r2)).length = 1 := by
  have h1 : processRecord bid now ⟨db, 0, 0⟩ r1
      = ⟨⟨db.browsers, db.bookmarks ++ [mkRow bid now db.next_bookmark_id r1],
          db.next_browser_id, db.next_bookmark_id + 1⟩, 1, 0⟩ := by
    rw [processRecord_insert bid now ⟨db, 0, 0⟩ r1
      (findBookmark_scope_none db.bookmarks bid r1 hscope)]
  have hfind2 : findBookmark
      (db.bookmarks ++ [mkRow bid now db.next_bookmark_id r1]) bid r2
      = some (mkRow bid now db.next_bookmark_id r1) := by
    rw [findBookmark_append, findBookmark_scope_none db.bookmarks bid r2 hscope,
      Option.none_or, findBookmark_eq]
    exact List.find?_cons_of_pos _
      (bmMatches_mkRow_of_key bid now db.next_bookmark_id r1 r2 hkey)
  have h2 : processRecord bid now
      ⟨⟨db.browsers, db.bookmarks ++ [mkRow bid now db.next_bookmark_id r1],
        db.next_browser_id, db.next_bookmark_id + 1⟩, 1, 0⟩ r2
      = ⟨⟨db.browsers, db.bookmarks ++
          [⟨db.next_bookmark_id, bid, recTitle r2, r1.url, some (folderNorm r1),
            coalesce (recCreatedAt r2) (recCreatedAt r1), some now⟩],
          db.next_browser_id, db.next_bookmark_id + 1⟩, 1, 1⟩ := by
    rw [processRecord_update bid now _ r2 (mkRow bid now db.next_bookmark_id r1)
      hfind2]
    have hm : (db.bookmarks ++ [mkRow bid now db.next_bookmark_id r1]).map
        (updateRow now (mkRow bid now db.next_bookmark_id r1).id r2)
        = db.bookmarks ++
          [⟨db.next_bookmark_id, bid, recTitle r2, r1.url, some (folderNorm r1),
            coalesce (recCreatedAt r2) (recCreatedAt r1), some now⟩] := by
      show (db.bookmarks ++ [mkRow bid now db.next_bookmark_id r1]).map
        (updateRow now db.next_bookmark_id r2) = _
      rw [List.map_append,
        updateRow_map_ne now db.next_bookmark_id r2 db.bookmarks
          (fun e he => Nat.ne_of_lt (hwf e he))]
      congr 1
      simp [updateRow, mkRow]
    rw [hm]
  have hmain : sync_bookmarks bid now db [r1, r2]
      = ⟨⟨db.browsers, db.bookmarks ++
          [⟨db.next_bookmark_id, bid, recTitle r2, r1.url, some (folderNorm r1),
            coalesce (recCreatedAt r2) (recCreatedAt r1), some now⟩],
          db.next_browser_id, db.next_bookmark_id + 1⟩, 1, 1⟩ := by
    show List.foldl (processRecord bid now) ⟨db, 0, 0⟩ [r1, r2] = _
    rw [List.foldl_cons, h1, List.foldl_cons, h2, List.foldl_nil]
  rw [hmain]
  refine ⟨rfl, rfl, rfl, ?_⟩
  have hb : bmMatches bid r2
      (⟨db.next_bookmark_id, bid, recTitle r2, r1.url, some (folderNorm r1),
        coalesce (recCreatedAt r2) (recCreatedAt r1), some now⟩ : Bookmark)
      = true := by
    rw [bmMatches_iff]
    refine ⟨rfl, ?_⟩
    rw [← hkey]
    rfl
  have hz : db.bookmarks.filter (bmMatches bid r2) = [] := by
    rw [List.filter_eq_nil_iff]
    intro e he
    simp [bmMatches_false_of_scope bid r2 e (hscope e he)]
  show ((db.bookmarks ++ [_]).filter (bmMatches bid r2)).length = 1
  rw [List.filter_append, hz, List.nil_append]
  simp [hb]

/-- Witness for C5: a batch of two records for url "u" with titles
"A" then "B", synced for identity 7 against an empty store. -/
theorem sync_batch_last_write_wins_witness :
    ((∀ e ∈ (⟨[], [], 1, 1⟩ : DB).bookmarks, e.browser_id ≠ 7) ∧
      (∀ e ∈ (⟨[], [], 1, 1⟩ : DB).bookmarks,
        e.id < (⟨[], [], 1, 1⟩ : DB).next_bookmark_id) ∧
      recKey ⟨.val "A", "u", .absent, .absent⟩
        = recKey ⟨.val "B", "u", .absent, .absent⟩) ∧
    (sync_bookmarks 7 "t" ⟨[], [], 1, 1⟩
      [⟨.val "A", "u", .absent, .absent⟩,
       ⟨.val "B", "u", .absent, .absent⟩]).inserted = 1 ∧
    (sync_bookmarks 7 "t" ⟨[], [], 1, 1⟩
      [⟨.val "A", "u", .absent, .absent⟩,
       ⟨.val "B", "u", .absent, .absent⟩]).updated = 1 ∧
    (sync_bookmarks 7 "t" ⟨[], [], 1, 1⟩
      [⟨.val "A", "u", .absent, .absent⟩,
       ⟨.val "B", "u", .absent, .absent⟩]).db.bookmarks
      = (⟨[], [], 1, 1⟩ : DB).bookmarks ++
        [⟨(⟨[], [], 1, 1⟩ : DB).next_bookmark_id, 7,
          recTitle ⟨.val "B", "u", .absent, .absent⟩,
          "u", some (folderNorm ⟨.val "A", "u", .absent, .absent⟩),
          coalesce (recCreatedAt ⟨.val "B", "u", .absent, .absent⟩)
            (recCreatedAt ⟨.val "A", "u", .absent, .absent⟩), some "t"⟩] ∧
    ((sync_bookmarks 7 "t" ⟨[], [], 1, 1⟩
      [⟨.val "A", "u", .absent, .absent⟩,
       ⟨.val "B", "u", .absent, .absent⟩]).db.bookmarks.filter
        (bmMatches 7 ⟨.val "B", "u", .absent, .absent⟩)).length = 1 :=
  ⟨⟨by decide, by decide, by decide⟩,
    sync_batch_last_write_wins ⟨[], [], 1, 1⟩ 7 "t"
      ⟨.val "A", "u", .absent, .absent⟩ ⟨.val "B", "u", .absent, .absent⟩
      (by decide) (by decide) (by decide)⟩

/-- Both branches of the UPDATE row function preserve id, owner, url
and folder path. -/
theorem updateRow_preserves (now : String) (rid : Nat) (r : BookmarkRecord)
    (x : Bookmark) :
    (updateRow now rid r x).id = x.id ∧
    (updateRow now rid r x).browser_id = x.browser_id ∧
    (updateRow now rid r x).url = x.url ∧
    (updateRow now rid r x).folder_path = x.folder_path := by
  unfold updateRow
  split <;> exact ⟨rfl, rfl, rfl, rfl⟩

/-- C6: update semantics per field.  When a record matches an existing
row, the row is counted as updated (not inserted) and its stored
fields become: title — the incoming title, unconditionally (absent
defaults to the empty string, a present string — even the empty one —
is taken verbatim); created_at — the incoming value only when
non-null, the existing value otherwise (null or absent never erase
it); updated_at — the reconciliation watermark. -/
theorem sync_update_field_semantics (db : DB) (bid : Nat) (now : String)
    (r : BookmarkRecord) (e : Bookmark) (i u : Nat)
    (hfind : findBookmark db.bookmarks bid r = some e) :
    (processRecord bid now ⟨db, i, u⟩ r).updated = u + 1 ∧
    (processRecord bid now ⟨db, i, u⟩ r).inserted = i ∧
    (∀ (j : Nat) (x : Bookmark), db.bookmarks[j]? = some x → x.id = e.id →
      (processRecord bid now ⟨db, i, u⟩ r).db.bookmarks[j]?
        = some { x with
            title := recTitle r
            created_at := coalesce (recCreatedAt r) x.created_at
            updated_at := some now }) ∧
    (∀ s, r.title = PyOpt.val s → recTitle r = some s) ∧
    (r.title = PyOpt.absent → recTitle r = some "") ∧
    (recCreatedAt r = none →
      ∀ x : Bookmark, coalesce (recCreatedAt r) x.created_at = x.created_at) ∧
    (∀ s, recCreatedAt r = some s →
      ∀ x : Bookmark, coalesce (recCreatedAt r) x.created_at = some s) := by
  have hmap : processRecord bid now ⟨db, i, u⟩ r
      = ⟨⟨db.browsers, db.bookmarks.map (updateRow now e.id r),
          db.next_browser_id, db.next_bookmark_id⟩, i, u + 1⟩ := by
    rw [processRecord_update bid now ⟨db, i, u⟩ r e hfind]
  refine ⟨by rw [hmap], by rw [hmap], ?_, ?_, ?_, ?_, ?_⟩
  · intro j x hj hid
    rw [hmap]
    show (db.bookmarks.map (updateRow now e.id r))[j]? = _
    rw [List.getElem?_map (updateRow now e.id r) db.bookmarks j, hj]
    unfold updateRow
    rw [Option.map_some']
    rw [if_pos]
    simp only [beq_iff_eq]
    exact hid
  · intro s hs
    simp [recTitle, hs, PyOpt.get]
  · intro hs
    simp [recTitle, hs, PyOpt.get]
  · intro hn x
    rw [hn]
    rfl
  · intro s hs x
    rw [hs]
    rfl

/-- Witness for C6: identity 7's stored row for url "u" is matched by
a record with a fresh title and a null created_at. -/
theorem sync_update_field_semantics_witness :
    findBookmark (⟨[], [⟨1, 7, some "Old", "u", some "", some "c0", some "t0"⟩],
        1, 2⟩ : DB).bookmarks 7 ⟨.val "New", "u", .absent, .null⟩
      = some ⟨1, 7, some "Old", "u", some "", some "c0", some "t0"⟩ ∧
    (processRecord 7 "t1"
      ⟨⟨[], [⟨1, 7, some "Old", "u", some "", some "c0", some "t0"⟩], 1, 2⟩,
        0, 0⟩ ⟨.val "New", "u", .absent, .null⟩).updated = 0 + 1 ∧
    (∀ (j : Nat) (x : Bookmark),
      (⟨[], [⟨1, 7, some "Old", "u", some "", some "c0", some "t0"⟩],
        1, 2⟩ : DB).bookmarks[j]? = some x →
      x.id = (⟨1, 7, some "Old", "u", some "", some "c0", some "t0"⟩
        : Bookmark).id →
      (processRecord 7 "t1"
        ⟨⟨[], [⟨1, 7, some "Old", "u", some "", some "c0", some "t0"⟩], 1, 2⟩,
          0, 0⟩ ⟨.val "New", "u", .absent, .null⟩).db.bookmarks[j]?
        = some { x with
            title := recTitle ⟨.val "New", "u", .absent, .null⟩
            created_at := coalesce
              (recCreatedAt ⟨.val "New", "u", .absent, .null⟩) x.created_at
            updated_at := some "t1" }) ∧
    (recCreatedAt ⟨.val "New", "u", .absent, .null⟩ = none →
      ∀ x : Bookmark, coalesce (recCreatedAt ⟨.val "New", "u", .absent, .null⟩)
        x.created_at = x.created_at) := by
  have h := sync_update_field_semantics
    ⟨[], [⟨1, 7, some "Old", "u", some "", some "c0", some "t0"⟩], 1, 2⟩ 7 "t1"
    ⟨.val "New", "u", .absent, .null⟩
    ⟨1, 7, some "Old", "u", some "", some "c0", some "t0"⟩ 0 0 (by decide)
  exact ⟨by decide, h.1, h.2.2.1, h.2.2.2.2.2.1⟩

/-- C10: frame condition of the update path.  Processing a record
that matches an existing row leaves both tables' shapes and counters
alone, preserves the id, owner, url and folder path of every row
(including the matched one — only title, created_at, updated_at may
change), and leaves every row other than the matched one (any other
dedup key or identity) entirely untouched. -/
theorem sync_update_frame (db : DB) (bid : Nat) (now : String)
    (r : BookmarkRecord) (e : Bookmark) (i u : Nat)
    (hfind : findBookmark db.bookmarks bid r = some e)
    (hnodup : (db.bookmarks.map Bookmark.id).Nodup) :
    (processRecord bid now ⟨db, i, u⟩ r).db.browsers = db.browsers ∧
    (processRecord bid now ⟨db, i, u⟩ r).db.next_browser_id
      = db.next_browser_id ∧
    (processRecord bid now ⟨db, i, u⟩ r).db.next_bookmark_id
      = db.next_bookmark_id ∧
    (processRecord bid now ⟨db, i, u⟩ r).db.bookmarks.length
      = db.bookmarks.length ∧
    (∀ (j : Nat) (x : Bookmark), db.bookmarks[j]? = some x →
      ∃ y, (processRecord bid now ⟨db, i, u⟩ r).db.bookmarks[j]? = some y ∧
        y.id = x.id ∧ y.browser_id = x.browser_id ∧ y.url = x.url ∧
        y.folder_path = x.folder_path) ∧
    (∀ (j : Nat) (x : Bookmark), db.bookmarks[j]? = some x → x ≠ e →
      (processRecord bid now ⟨db, i, u⟩ r).db.bookmarks[j]? = some x) := by
  have hmem : e ∈ db.bookmarks :=
    List.mem_of_find?_eq_some hfind
  have hmap : processRecord bid now ⟨db, i, u⟩ r
      = ⟨⟨db.browsers, db.bookmarks.map (updateRow now e.id r),
          db.next_browser_id, db.next_bookmark_id⟩, i, u + 1⟩ := by
    rw [processRecord_update bid now ⟨db, i, u⟩ r e hfind]
  refine ⟨by rw [hmap], by rw [hmap], by rw [hmap], ?_, ?_, ?_⟩
  · rw [hmap]
    exact List.length_map db.bookmarks (updateRow now e.id r)
  · intro j x hj
    refine ⟨updateRow now e.id r x, ?_,
      (updateRow_preserves now e.id r x).1,
      (updateRow_preserves now e.id r x).2.1,
      (updateRow_preserves now e.id r x).2.2.1,
      (updateRow_preserves now e.id r x).2.2.2⟩
    rw [hmap]
    show (db.bookmarks.map (updateRow now e.id r))[j]? = _
    rw [List.getElem?_map (updateRow now e.id r) db.bookmarks j, hj]
    rfl
  · intro j x hj hne
    have hxmem : x ∈ db.bookmarks := List.getElem?_mem hj
    have hid : x.id ≠ e.id := fun hideq =>
      hne (List.inj_on_of_nodup_map hnodup hxmem hmem hideq)
    rw [hmap]
    show (db.bookmarks.map (updateRow now e.id r))[j]? = _
    rw [List.getElem?_map (updateRow now e.id r) db.bookmarks j, hj]
    unfold updateRow
    rw [Option.map_some', if_neg]
    simp only [beq_iff_eq]
    exact hid

/-- Witness for C10: a two-row store (one row per identity); the
record matches identity 7's row, and identity 8's row comes out
untouched. -/
theorem sync_update_frame_witness :
    (findBookmark (⟨[],
        [⟨1, 7, some "A", "u", some "", none, some "t0"⟩,
         ⟨2, 8, some "B", "u", some "", none, some "t0"⟩],
        1, 3⟩ : DB).bookmarks 7 ⟨.val "New", "u", .absent, .absent⟩
      = some ⟨1, 7, some "A", "u", some "", none, some "t0"⟩ ∧
      ((⟨[],
        [⟨1, 7, some "A", "u", some "", none, some "t0"⟩,
         ⟨2, 8, some "B", "u", some "", none, some "t0"⟩],
        1, 3⟩ : DB).bookmarks.map Bookmark.id).Nodup) ∧
    (processRecord 7 "t1"
      ⟨⟨[],
        [⟨1, 7, some "A", "u", some "", none, some "t0"⟩,
         ⟨2, 8, some "B", "u", some "", none, some "t0"⟩],
        1, 3⟩, 0, 0⟩ ⟨.val "New", "u", .absent, .absent⟩).db.bookmarks.length
      = (⟨[],
        [⟨1, 7, some "A", "u", some "", none, some "t0"⟩,
         ⟨2, 8, some "B", "u", some "", none, some "t0"⟩],
        1, 3⟩ : DB).bookmarks.length ∧
    (∀ (j : Nat) (x : Bookmark),
      (⟨[],
        [⟨1, 7, some "A", "u", some "", none, some "t0"⟩,
         ⟨2, 8, some "B", "u", some "", none, some "t0"⟩],
        1, 3⟩ : DB).bookmarks[j]? = some x →
      x ≠ ⟨1, 7, some "A", "u", some "", none, some "t0"⟩ →
      (processRecord 7 "t1"
        ⟨⟨[],
          [⟨1, 7, some "A", "u", some "", none, some "t0"⟩,
           ⟨2, 8, some "B", "u", some "", none, some "t0"⟩],
          1, 3⟩, 0, 0⟩ ⟨.val "New", "u", .absent, .absent⟩).db.bookmarks[j]?
        = some x) := by
  have h := sync_update_frame
    ⟨[],
      [⟨1, 7, some "A", "u", some "", none, some "t0"⟩,
       ⟨2, 8, some "B", "u", some "", none, some "t0"⟩],
      1, 3⟩ 7 "t1" ⟨.val "New", "u", .absent, .absent⟩
    ⟨1, 7, some "A", "u", some "", none, some "t0"⟩ 0 0 (by decide) (by decide)
  exact ⟨⟨by decide, by decide⟩, h.2.2.2.1, h.2.2.2.2.2⟩

-- ===== Claim theorems: retrieval projection =====

/-- The BINARY collation is antisymmetric. -/
theorem charListLe_antisymm : ∀ (as bs : List Char),
    charListLe as bs = true → charListLe bs as = true → as = bs := by
  intro as
  induction as with
  | nil =>
    intro bs h1 h2
    cases bs with
    | nil => rfl
    | cons b bs => simp [charListLe] at h2
  | cons a as ih =>
    intro bs h1 h2
    cases bs with
    | nil => simp [charListLe] at h1
    | cons b bs =>
      simp only [charListLe] at h1 h2
      by_cases hab : a < b
      · rw [if_neg (lt_asymm hab),
          if_neg (fun h : b = a => absurd (h ▸ hab) (lt_irrefl _))] at h2
        exact absurd h2 (by simp)
      · by_cases heq : a = b
        · subst heq
          rw [if_neg hab, if_pos rfl] at h1
          rw [if_neg hab, if_pos rfl] at h2
          rw [ih bs h1 h2]
        · rw [if_neg hab, if_neg heq] at h1
          exact absurd h1 (by simp)

/-- The nullable-TEXT order is antisymmetric. -/
theorem tsLe_antisymm (x y : Option String) (h1 : tsLe x y = true)
    (h2 : tsLe y x = true) : x = y := by
  cases x with
  | none =>
    cases y with
    | none => rfl
    | some b => simp [tsLe] at h2
  | some a =>
    cases y with
    | none => simp [tsLe] at h1
    | some b =>
      simp only [tsLe] at h1 h2
      have hd := charListLe_antisymm a.data b.data h1 h2
      cases a
      cases b
      simp_all

/-- C3 counterexample: the query `ORDER BY b.updated_at DESC` carries
no secondary sort key, so with two rows sharing a watermark both
relative orders are valid results of `list_bookmarks` — the output
order is not a deterministic function of the stored rows, and
equal-watermark rows need not appear in ascending id order. -/
theorem list_bookmarks_tie_order_unspecified :
    list_bookmarks
      ⟨[⟨1, "c", "d", "p"⟩],
       [⟨1, 1, some "A", "u1", some "", none, some "t"⟩,
        ⟨2, 1, some "B", "u2", some "", none, some "t"⟩], 2, 3⟩
      [⟨2, "c", "d", "p", some "B", "u2", some "", none, some "t"⟩,
       ⟨1, "c", "d", "p", some "A", "u1", some "", none, some "t"⟩] ∧
    list_bookmarks
      ⟨[⟨1, "c", "d", "p"⟩],
       [⟨1, 1, some "A", "u1", some "", none, some "t"⟩,
        ⟨2, 1, some "B", "u2", some "", none, some "t"⟩], 2, 3⟩
      [⟨1, "c", "d", "p", some "A", "u1", some "", none, some "t"⟩,
       ⟨2, "c", "d", "p", some "B", "u2", some "", none, some "t"⟩] ∧
    ([⟨2, "c", "d", "p", some "B", "u2", some "", none, some "t"⟩,
      ⟨1, "c", "d", "p", some "A", "u1", some "", none, some "t"⟩]
      : List JoinedRow)
      ≠ [⟨1, "c", "d", "p", some "A", "u1", some "", none, some "t"⟩,
         ⟨2, "c", "d", "p", some "B", "u2", some "", none, some "t"⟩] ∧
    ¬ (([⟨2, "c", "d", "p", some "B", "u2", some "", none, some "t"⟩,
        ⟨1, "c", "d", "p", some "A", "u1", some "", none, some "t"⟩]
        : List JoinedRow).Pairwise (fun a b =>
          a.updated_at = b.updated_at → a.id < b.id)) :=
  ⟨⟨by decide, by decide⟩, ⟨by decide, by decide⟩, by decide, by decide⟩

/-- C3 (amended): the projection is the join sorted by `updated_at`
descending, and it is a deterministic function of the stored rows
whenever all watermarks in the join are pairwise distinct — any two
valid outputs then coincide; the relative order of equal-watermark
rows is left unspecified by the query. -/
theorem list_bookmarks_deterministic_of_distinct_watermarks (db : DB)
    (out1 out2 : List JoinedRow)
    (h1 : list_bookmarks db out1) (h2 : list_bookmarks db out2)
    (hdist : (joinRows db).Pairwise
      (fun a b => a.updated_at ≠ b.updated_at)) :
    out1 = out2 := by
  haveI : IsAntisymm JoinedRow
      (fun a b => rowGe a b ∧ a.updated_at ≠ b.updated_at) := ⟨by
    intro a b hab hba
    exact absurd (tsLe_antisymm _ _ hba.1 hab.1) hab.2⟩
  have hne1 : out1.Pairwise (fun a b => a.updated_at ≠ b.updated_at) :=
    (h1.1.pairwise_iff (fun h => Ne.symm h)).mpr hdist
  have hne2 : out2.Pairwise (fun a b => a.updated_at ≠ b.updated_at) :=
    (h2.1.pairwise_iff (fun h => Ne.symm h)).mpr hdist
  have hp : out1.Perm out2 := h1.1.trans h2.1.symm
  exact List.eq_of_perm_of_sorted hp (h1.2.and hne1) (h2.2.and hne2)

/-- Witness for amended C3: a two-row store with distinct watermarks
and its unique sorted output. -/
theorem list_bookmarks_deterministic_witness :
    (list_bookmarks
      ⟨[⟨1, "c", "d", "p"⟩],
       [⟨1, 1, some "A", "u1", some "", none, some "t1"⟩,
        ⟨2, 1, some "B", "u2", some "", none, some "t2"⟩], 2, 3⟩
      [⟨2, "c", "d", "p", some "B", "u2", some "", none, some "t2"⟩,
       ⟨1, "c", "d", "p", some "A", "u1", some "", none, some "t1"⟩] ∧
      (joinRows
        ⟨[⟨1, "c", "d", "p"⟩],
         [⟨1, 1, some "A", "u1", some "", none, some "t1"⟩,
          ⟨2, 1, some "B", "u2", some "", none, some "t2"⟩], 2, 3⟩).Pairwise
        (fun a b => a.updated_at ≠ b.updated_at)) ∧
    ([⟨2, "c", "d", "p", some "B", "u2", some "", none, some "t2"⟩,
      ⟨1, "c", "d", "p", some "A", "u1", some "", none, some "t1"⟩]
      : List JoinedRow)
      = [⟨2, "c", "d", "p", some "B", "u2", some "", none, some "t2"⟩,
         ⟨1, "c", "d", "p", some "A", "u1", some "", none, some "t1"⟩] :=
  ⟨⟨⟨by decide, by decide⟩, by decide⟩,
    list_bookmarks_deterministic_of_distinct_watermarks
      ⟨[⟨1, "c", "d", "p"⟩],
       [⟨1, 1, some "A", "u1", some "", none, some "t1"⟩,
        ⟨2, 1, some "B", "u2", some "", none, some "t2"⟩], 2, 3⟩
      [⟨2, "c", "d", "p", some "B", "u2", some "", none, some "t2"⟩,
       ⟨1, "c", "d", "p", some "A", "u1", some "", none, some "t1"⟩]
      [⟨2, "c", "d", "p", some "B", "u2", some "", none, some "t2"⟩,
       ⟨1, "c", "d", "p", some "A", "u1", some "", none, some "t1"⟩]
      ⟨by decide, by decide⟩ ⟨by decide, by decide⟩ (by decide)⟩
